import Mathlib

/-!
Verification of the slack input adapter (`bot/input/slack/slack.go`).

The file shallowly embeds the pure core of the adapter: event
classification and argument parsing (`process`, lines 65-101), command
dispatch (`exec`, lines 34-63), command registration (`Process`,
lines 215-225), and the run loop's user-name cache refresh
(the closure `fn` and the ticker assignment `names = fn()`,
lines 103-145).  Side effects are made explicit: dispatch returns the
list of outgoing messages `(text, channel)` it sends together with the
names of the commands whose `Exec` it invoked; registration returns the
new registry state together with an optional error message; the cache
refresh is a function from the previous cache and the `GetUsers` result
to the new cache.
-/

namespace SlackBot

/-- A registered command handler (`command.Command`): `Name() string` and
`Exec(args ...string) ([]byte, error)`.  The output bytes are modelled as
a `String` (the adapter only ever converts them with `string(rsp)`); a
non-nil error is `Except.error` carrying the error's message as rendered
by `%v`. -/
structure Command where
  name : String
  exec : List String → Except String String

/-- The fields of `slack.MessageEvent` the adapter reads: `Type`, `User`
(the sender's identifier), `Channel` and `Text`. -/
structure MessageEvent where
  type : String
  user : String
  channel : String
  text : String

/-- The fields of `slack.AuthTestResponse` the adapter reads: `User`
(the adapter's display handle) and `UserID` (its user identifier). -/
structure AuthTestResponse where
  user : String
  userID : String

/-- The fields of `slack.User` the run loop reads: `ID` and `Name`. -/
structure User where
  id : String
  name : String

/-- Split a character list at every `' '`, keeping empty fields: the
behaviour of Go's `strings.Split(s, " ")` on the character level. -/
def splitChar : List Char → List (List Char)
  | [] => [[]]
  | c :: rest =>
    match splitChar rest with
    | [] => [[c]]
    | w :: ws => if c = ' ' then [] :: w :: ws else (c :: w) :: ws

/-- `strings.Split(s, " ")` as the adapter uses it (single-space
separator, empty fields kept). -/
def splitSpaces (s : String) : List String :=
  (splitChar s.data).map fun l => String.mk l

/-- `strings.HasPrefix s pre`. -/
def strStarts (s pre : String) : Bool :=
  List.isPrefixOf pre.data s.data

/-- The structured mention form the classifier builds with
`fmt.Sprintf("<@%s>", auth.UserID)` (lines 83 and 94). -/
def mention (auth : AuthTestResponse) : String :=
  "<@" ++ auth.userID ++ ">"

/-- The success reply text of `exec` (lines 55-59): `"@<name>: <rsp>"`,
replaced by the raw `rsp` when the display name is empty or the channel
identifier starts with `"D"` (a direct channel). -/
def successText (name rsp channel : String) : String :=
  if name = "" ∨ strStarts channel "D" = true then rsp
  else "@" ++ name ++ ": " ++ rsp

/-- The matching loop of `exec` (lines 43-62), iterating over the
registry's commands.  `a0` is `args[0]`.  Returns the outgoing messages
`(text, channel)` sent through `rtm.SendMessage` and the names of the
commands whose `Exec` was invoked.  On an `Exec` error the Go code sends
the error reply and returns from `exec`; on success it sends the reply
and continues the loop (no `return`). -/
def execLoop (channel : String) (args : List String) (a0 name : String) :
    List Command → List (String × String) × List String
  | [] => ([], [])
  | cmd :: rest =>
    if a0 ≠ cmd.name then execLoop channel args a0 name rest
    else
      match cmd.exec args with
      | Except.error e =>
          ([("@" ++ name ++ ": error executing command: " ++ e, channel)], [cmd.name])
      | Except.ok rsp =>
          let r := execLoop channel args a0 name rest
          ((successText name rsp channel, channel) :: r.1, cmd.name :: r.2)

/-- `exec` (lines 34-63): bail out on an empty argument list (line 39),
otherwise run the matching loop with `args[0]` as the candidate command
name.  The Go method has no return value, so the only observables are
the sent messages and the invoked commands. -/
def exec (cmds : List Command) (ev : MessageEvent) (args : List String)
    (name : String) : List (String × String) × List String :=
  match args with
  | [] => ([], [])
  | a0 :: _ => execLoop ev.channel args a0 name cmds

/-- The acceptance gate of `process` (lines 66-86): the event type must
be `"message"`, the text non-empty, the sender must differ from
`auth.User`, and the event must be a direct channel or the text must
begin with `auth.User` or with the structured mention `<@auth.UserID>`.
The Go code expresses this as a sequence of early returns; conjunction
of the conditions is equivalent. -/
def acceptedEv (ev : MessageEvent) (auth : AuthTestResponse) : Bool :=
  ev.type == "message" && !(ev.text == "") && !(ev.user == auth.user) &&
    (strStarts ev.channel "D" || strStarts ev.text auth.user ||
      strStarts ev.text (mention auth))

/-- The argument extraction of `process` (lines 88-98): if the text
begins with `auth.User` or with the structured mention, split on spaces
and drop the leading token; otherwise split the full text. -/
def parseArgs (ev : MessageEvent) (auth : AuthTestResponse) : List String :=
  if strStarts ev.text auth.user then (splitSpaces ev.text).drop 1
  else if strStarts ev.text (mention auth) then (splitSpaces ev.text).drop 1
  else splitSpaces ev.text

/-- `process` (lines 65-101): classify the event and, when accepted,
dispatch the parsed arguments through `exec`.  `name` is the display
name the run loop passes as `names[ev.User]`. -/
def process (cmds : List Command) (ev : MessageEvent)
    (auth : AuthTestResponse) (name : String) :
    List (String × String) × List String :=
  if acceptedEv ev auth then exec cmds ev (parseArgs ev auth) name
  else ([], [])

/-- Registration, the adapter's `Process` method (lines 215-225): fail
when a command with the same name already exists, leaving the registry
as it was; otherwise add the command under its name.  The Go registry is
a map keyed by `cmd.Name()`, modelled as a list of commands with the
unique-names invariant this very method maintains. -/
def Process (cmds : List Command) (cmd : Command) :
    List Command × Option String :=
  if cmds.any (fun c => c.name == cmd.name) then
    (cmds, some ("Command with name " ++ cmd.name ++ " already exists"))
  else
    (cmds ++ [cmd], none)

/-- Lookup of the handler registered under a name, the counterpart of
reading the Go map `p.cmds[n]`. -/
def lookupCmd (cmds : List Command) (n : String) : Option Command :=
  cmds.find? fun c => c.name == n

/-- One Go map insertion `names[k] = v`: overwrite the entry when the
key is present, append it otherwise. -/
def updateNames (m : List (String × String)) (k v : String) :
    List (String × String) :=
  if m.any (fun p => p.1 == k) then
    m.map fun p => if p.1 == k then (k, v) else p
  else m ++ [(k, v)]

/-- The run loop's closure `fn` (lines 109-121): on a `GetUsers` error
return a freshly made empty map; otherwise build the map `user.ID ↦
user.Name` over the returned users. -/
def fn (res : Except String (List User)) : List (String × String) :=
  match res with
  | Except.error _ => []
  | Except.ok users => users.foldl (fun m u => updateNames m u.id u.name) []

/-- The ticker branch of the run loop, `names = fn()` (lines 132-133):
the cache after a refresh is whatever `fn` returns for the `GetUsers`
result; the previous cache is discarded. -/
def refreshNames (_old : List (String × String))
    (res : Except String (List User)) : List (String × String) :=
  fn res

/-- The run loop's read `names[ev.User]` (line 139): a Go map read with
the zero value `""` for a missing key. -/
def nameOf (m : List (String × String)) (id : String) : String :=
  match m.find? (fun p => p.1 == id) with
  | some p => p.2
  | none => ""

end SlackBot

namespace SlackBot

theorem strAppend_assoc (a b c : String) : a ++ b ++ c = a ++ (b ++ c) := by
  obtain ⟨la⟩ := a
  obtain ⟨lb⟩ := b
  obtain ⟨lc⟩ := c
  show String.mk (la ++ lb ++ lc) = String.mk (la ++ (lb ++ lc))
  rw [List.append_assoc]

theorem execLoop_no_match (channel : String) (args : List String)
    (a0 name : String) (cmds : List Command)
    (h : ∀ c ∈ cmds, c.name ≠ a0) :
    execLoop channel args a0 name cmds = ([], []) := by
  induction cmds with
  | nil => rfl
  | cons c rest ih =>
    have hne : ¬ a0 = c.name := fun e => h c (List.mem_cons_self c rest) e.symm
    simp only [execLoop, ne_eq, hne, not_false_eq_true, if_true, ite_true]
    exact ih fun d hd => h d (List.mem_cons_of_mem c hd)

theorem execLoop_match_error (channel : String) (args : List String)
    (a0 name e : String) (cmds : List Command) (cmd : Command)
    (hu : List.Pairwise (fun a b => a.name ≠ b.name) cmds)
    (hm : cmd ∈ cmds) (hn : cmd.name = a0)
    (he : cmd.exec args = Except.error e) :
    execLoop channel args a0 name cmds =
      ([("@" ++ name ++ ": error executing command: " ++ e, channel)], [a0]) := by
  induction cmds with
  | nil => cases hm
  | cons c rest ih =>
    rcases List.mem_cons.mp hm with rfl | hmem
    · simp [execLoop, hn, he]
    · have h1 : c.name ≠ a0 :=
        fun h' => (List.pairwise_cons.mp hu).1 cmd hmem (h'.trans hn.symm)
      have hne : ¬ a0 = c.name := fun h' => h1 h'.symm
      simp only [execLoop, ne_eq, hne, not_false_eq_true, ite_true]
      exact ih (List.pairwise_cons.mp hu).2 hmem

theorem execLoop_match_ok (channel : String) (args : List String)
    (a0 name rsp : String) (cmds : List Command) (cmd : Command)
    (hu : List.Pairwise (fun a b => a.name ≠ b.name) cmds)
    (hm : cmd ∈ cmds) (hn : cmd.name = a0)
    (ho : cmd.exec args = Except.ok rsp) :
    execLoop channel args a0 name cmds =
      ([(successText name rsp channel, channel)], [a0]) := by
  induction cmds with
  | nil => cases hm
  | cons c rest ih =>
    rcases List.mem_cons.mp hm with rfl | hmem
    · have hall : ∀ d ∈ rest, d.name ≠ a0 := by
        intro d hd hda
        exact (List.pairwise_cons.mp hu).1 d hd (hn.trans hda.symm)
      have hrest := execLoop_no_match channel args a0 name rest hall
      simp [execLoop, hn, ho, hrest]
    · have h1 : c.name ≠ a0 :=
        fun h' => (List.pairwise_cons.mp hu).1 cmd hmem (h'.trans hn.symm)
      have hne : ¬ a0 = c.name := fun h' => h1 h'.symm
      simp only [execLoop, ne_eq, hne, not_false_eq_true, ite_true]
      exact ih (List.pairwise_cons.mp hu).2 hmem

end SlackBot

namespace SlackBot

/-- Claim C1 (counterexample): with `"U123" ↦ "alice"` cached, a failed
refresh does not leave the mapping unchanged. -/
theorem c1_failed_refresh_counterexample :
    refreshNames [("U123", "alice")] (Except.error "boom") ≠
      [("U123", "alice")] := by decide

/-- Claim C1 (amended): after a failed periodic refresh the
identifier-to-display-name mapping is the empty mapping; previously
cached names are discarded, not preserved. -/
theorem c1_failed_refresh_empties (old : List (String × String))
    (e : String) : refreshNames old (Except.error e) = [] := rfl

/-- Claim C2: the event with text `"@bot deploy staging"` from `U123`
(cached display name `"alice"`) in channel `"C999"`, against a registry
holding the handler `deploy` returning `("ok", nil)`, sends exactly the
outgoing message `"@alice: ok"` to `"C999"` (the adapter's display
handle is `"@bot"`, so the text is addressed to it). -/
theorem c2_example_reply :
    process [⟨"deploy", fun _ => Except.ok "ok"⟩]
        ⟨"message", "U123", "C999", "@bot deploy staging"⟩ ⟨"@bot", "UBOT"⟩
        (nameOf [("U123", "alice")] "U123") =
      ([("@alice: ok", "C999")], ["deploy"]) := by decide

/-- Claim C3 (counterexample): an accepted direct-channel event whose
text begins with the adapter's handle has its leading token dropped —
parsing is not the full split. -/
theorem c3_direct_strip_counterexample :
    acceptedEv ⟨"message", "U123", "D001", "@bot deploy"⟩ ⟨"@bot", "UBOT"⟩ =
      true ∧
    strStarts "D001" "D" = true ∧
    parseArgs ⟨"message", "U123", "D001", "@bot deploy"⟩ ⟨"@bot", "UBOT"⟩ =
      ["deploy"] ∧
    splitSpaces "@bot deploy" = ["@bot", "deploy"] := by decide

/-- Claim C3 (amended): for direct-channel events whose text begins with
neither the adapter's handle nor its structured mention, parsing splits
the full text on spaces without dropping any leading token; when the
text does begin with either form the leading token is dropped even in a
direct channel. -/
theorem c3_direct_no_strip (ev : MessageEvent) (auth : AuthTestResponse)
    (_hd : strStarts ev.channel "D" = true)
    (h1 : strStarts ev.text auth.user = false)
    (h2 : strStarts ev.text (mention auth) = false) :
    parseArgs ev auth = splitSpaces ev.text := by
  simp [parseArgs, h1, h2]

theorem c3_direct_no_strip_witness :
    parseArgs ⟨"message", "U123", "D001", "deploy staging"⟩
        ⟨"@bot", "UBOT"⟩ = ["deploy", "staging"] := by
  have h := c3_direct_no_strip ⟨"message", "U123", "D001", "deploy staging"⟩
      ⟨"@bot", "UBOT"⟩ (by decide) (by decide) (by decide)
  exact h.trans (by decide)

/-- Claim C4 (code bug): a message whose sender identifier equals the
adapter's own user ID (`auth.UserID`) is nevertheless dispatched — the
self check at line 75 compares `ev.User` with `auth.User`, the display
handle, not with `auth.UserID` — so a self-authored direct message
reaches its handler and a reply is sent. -/
theorem c4_self_id_dispatched :
    process [⟨"ping", fun _ => Except.ok "pong"⟩]
        ⟨"message", "UB123", "D001", "ping"⟩ ⟨"bot", "UB123"⟩
        (nameOf [("UB123", "bot")] "UB123") =
      ([("pong", "D001")], ["ping"]) ∧
    (MessageEvent.mk "message" "UB123" "D001" "ping").user =
      (AuthTestResponse.mk "bot" "UB123").userID := by decide

/-- Claim C5: when the matched handler succeeds with output `rsp`, the
single reply sent to the originating channel is `"@<name>: <rsp>"` when
the display name is non-empty and the channel is not direct, and is the
raw `rsp` when the name is empty or the channel is direct.  Uniqueness
of registered names is the registry invariant maintained by `Process`
(the Go registry is a map keyed by name). -/
theorem c5_success_reply (cmds : List Command) (ev : MessageEvent)
    (a0 : String) (rest : List String) (name rsp : String) (cmd : Command)
    (hu : List.Pairwise (fun a b => a.name ≠ b.name) cmds)
    (hm : cmd ∈ cmds) (hn : cmd.name = a0)
    (ho : cmd.exec (a0 :: rest) = Except.ok rsp) :
    (name ≠ "" → strStarts ev.channel "D" = false →
        (exec cmds ev (a0 :: rest) name).1 =
          [("@" ++ name ++ ": " ++ rsp, ev.channel)]) ∧
    ((name = "" ∨ strStarts ev.channel "D" = true) →
        (exec cmds ev (a0 :: rest) name).1 = [(rsp, ev.channel)]) := by
  have h := execLoop_match_ok ev.channel (a0 :: rest) a0 name rsp cmds cmd
    hu hm hn ho
  constructor
  · intro h1 h2
    simp [exec, h, successText, h1, h2]
  · intro h12
    simp only [exec, h]
    simp only [successText]
    rw [if_pos h12]

theorem c5_success_reply_witness :
    (exec [⟨"deploy", fun _ => Except.ok "ok"⟩]
        ⟨"message", "U123", "C999", "x"⟩ ["deploy", "staging"] "alice").1 =
      [("@alice: ok", "C999")] := by
  have h := c5_success_reply [⟨"deploy", fun _ => Except.ok "ok"⟩]
      ⟨"message", "U123", "C999", "x"⟩ "deploy" ["staging"] "alice" "ok"
      ⟨"deploy", fun _ => Except.ok "ok"⟩
      (List.Pairwise.cons (fun d hd => (List.not_mem_nil d hd).elim)
        List.Pairwise.nil)
      (List.mem_singleton.mpr rfl) rfl rfl
  exact h.1 (by decide) (by decide)

/-- Claim C6: when the matched handler fails with error message `e`,
exactly one reply is sent to the originating channel, of the form
`"@<name>: error executing command: <e>"`, and that reply contains the
literal substring `"error executing command:"`. -/
theorem c6_error_reply (cmds : List Command) (ev : MessageEvent)
    (a0 : String) (rest : List String) (name e : String) (cmd : Command)
    (hu : List.Pairwise (fun a b => a.name ≠ b.name) cmds)
    (hm : cmd ∈ cmds) (hn : cmd.name = a0)
    (he : cmd.exec (a0 :: rest) = Except.error e) :
    (exec cmds ev (a0 :: rest) name).1 =
      [("@" ++ name ++ ": error executing command: " ++ e, ev.channel)] ∧
    ∃ u v, "@" ++ name ++ ": error executing command: " ++ e =
      u ++ "error executing command:" ++ v := by
  have h := execLoop_match_error ev.channel (a0 :: rest) a0 name e cmds cmd
    hu hm hn he
  refine ⟨by simp [exec, h], "@" ++ name ++ ": ", " " ++ e, ?_⟩
  have hlit : (": error executing command: " : String) =
      ": " ++ "error executing command:" ++ " " := by decide
  calc "@" ++ name ++ ": error executing command: " ++ e
      = "@" ++ name ++ (": " ++ "error executing command:" ++ " ") ++ e := by
        rw [← hlit]
    _ = "@" ++ name ++ ": " ++ "error executing command:" ++ (" " ++ e) := by
        simp only [strAppend_assoc]

theorem c6_error_reply_witness :
    (exec [⟨"deploy", fun _ => Except.error "boom"⟩]
        ⟨"message", "U123", "C999", "x"⟩ ["deploy"] "alice").1 =
      [("@alice: error executing command: boom", "C999")] := by
  have h := c6_error_reply [⟨"deploy", fun _ => Except.error "boom"⟩]
      ⟨"message", "U123", "C999", "x"⟩ "deploy" [] "alice" "boom"
      ⟨"deploy", fun _ => Except.error "boom"⟩
      (List.Pairwise.cons (fun d hd => (List.not_mem_nil d hd).elim)
        List.Pairwise.nil)
      (List.mem_singleton.mpr rfl) rfl rfl
  exact h.1

/-- Claim C7: registering under an already-taken name returns the
duplicate error and leaves the registry unchanged — the first handler
stays registered under that name; registering under a fresh name
succeeds and appends exactly that one entry. -/
theorem c7_register (cmds : List Command) (cmd : Command) :
    ((∃ c ∈ cmds, c.name = cmd.name) →
        (Process cmds cmd).1 = cmds ∧
        (Process cmds cmd).2 =
          some ("Command with name " ++ cmd.name ++ " already exists") ∧
        lookupCmd (Process cmds cmd).1 cmd.name = lookupCmd cmds cmd.name) ∧
    ((∀ c ∈ cmds, c.name ≠ cmd.name) →
        (Process cmds cmd).1 = cmds ++ [cmd] ∧
        (Process cmds cmd).2 = none) := by
  have hkey : (cmds.any fun c => c.name == cmd.name) = true ↔
      ∃ c ∈ cmds, c.name = cmd.name := by
    simp [List.any_eq_true]
  constructor
  · intro hdup
    have hb := hkey.mpr hdup
    simp [Process, hb]
  · intro hfresh
    have hb : ¬ (cmds.any fun c => c.name == cmd.name) = true := fun hany => by
      obtain ⟨c, hc, hce⟩ := hkey.mp hany
      exact hfresh c hc hce
    simp [Process, hb]

theorem c7_register_witness :
    (Process [⟨"deploy", fun _ => Except.ok "a"⟩]
        ⟨"deploy", fun _ => Except.ok "b"⟩).1 =
      [⟨"deploy", fun _ => Except.ok "a"⟩] ∧
    Process [] (⟨"deploy", fun _ => Except.ok "a"⟩ : Command) =
      ([⟨"deploy", fun _ => Except.ok "a"⟩], none) := by
  constructor
  · exact ((c7_register [⟨"deploy", fun _ => Except.ok "a"⟩]
      ⟨"deploy", fun _ => Except.ok "b"⟩).1
      ⟨⟨"deploy", fun _ => Except.ok "a"⟩, List.mem_singleton.mpr rfl, rfl⟩).1
  · have h := (c7_register [] ⟨"deploy", fun _ => Except.ok "a"⟩).2
      (fun c hc => (List.not_mem_nil c hc).elim)
    exact Prod.ext h.1 h.2

/-- Claim C8: when no registered command's name equals the first parsed
token, dispatch sends no message and invokes no handler (the Go `exec`
returns no value, so no error can be surfaced either). -/
theorem c8_unregistered_silent (cmds : List Command) (ev : MessageEvent)
    (a0 : String) (rest : List String) (name : String)
    (h : ∀ c ∈ cmds, c.name ≠ a0) :
    exec cmds ev (a0 :: rest) name = ([], []) := by
  simp [exec, execLoop_no_match ev.channel (a0 :: rest) a0 name cmds h]

theorem c8_unregistered_silent_witness :
    exec [⟨"deploy", fun _ => Except.ok "ok"⟩]
        ⟨"message", "U123", "C999", "x"⟩ ["status"] "alice" = ([], []) := by
  exact c8_unregistered_silent [⟨"deploy", fun _ => Except.ok "ok"⟩]
    ⟨"message", "U123", "C999", "x"⟩ "status" [] "alice"
    (fun c hc => by rcases List.mem_singleton.mp hc with rfl; decide)

/-- Claim C9 (counterexample): an accepted event whose parsed arguments
begin with the empty token is not skipped for every registry state — a
registry holding a handler named `""` has that handler invoked and a
reply sent. -/
theorem c9_empty_token_counterexample :
    process [⟨"", fun _ => Except.ok "hi"⟩]
        ⟨"message", "U123", "D001", " x"⟩ ⟨"@bot", "UBOT"⟩ "alice" =
      ([("hi", "D001")], [""]) ∧
    parseArgs ⟨"message", "U123", "D001", " x"⟩ ⟨"@bot", "UBOT"⟩ =
      ["", "x"] := by decide

/-- Claim C9 (amended): an accepted event whose first parsed token is
the empty string is skipped silently — no handler invoked, no reply
sent — provided every registered handler's name is non-empty.  The code
has no explicit emptiness check: the empty token is skipped only
because it matches no non-empty registered name. -/
theorem c9_empty_token_skipped (cmds : List Command) (ev : MessageEvent)
    (auth : AuthTestResponse) (name : String) (rest : List String)
    (hargs : parseArgs ev auth = "" :: rest)
    (hne : ∀ c ∈ cmds, c.name ≠ "") :
    process cmds ev auth name = ([], []) := by
  by_cases ha : acceptedEv ev auth = true
  · simp only [process, ha, if_true, ite_true, hargs]
    simp [exec, execLoop_no_match ev.channel ("" :: rest) "" name cmds hne]
  · simp only [process]
    rw [if_neg ha]

theorem c9_empty_token_skipped_witness :
    process [⟨"deploy", fun _ => Except.ok "ok"⟩]
        ⟨"message", "U123", "D001", " x"⟩ ⟨"@bot", "UBOT"⟩ "alice" =
      ([], []) := by
  exact c9_empty_token_skipped [⟨"deploy", fun _ => Except.ok "ok"⟩]
    ⟨"message", "U123", "D001", " x"⟩ ⟨"@bot", "UBOT"⟩ "alice" ["x"]
    (by decide)
    (fun c hc => by rcases List.mem_singleton.mp hc with rfl; decide)

/-- Claim C10: the error reply carries the `"@<name>: "` prefix
unconditionally — the conclusion holds for every display name and every
channel, with no analogue of the success path's prefix-dropping
conditions. -/
theorem c10_error_reply_prefixed (cmds : List Command) (ev : MessageEvent)
    (a0 : String) (rest : List String) (name e : String) (cmd : Command)
    (hu : List.Pairwise (fun a b => a.name ≠ b.name) cmds)
    (hm : cmd ∈ cmds) (hn : cmd.name = a0)
    (he : cmd.exec (a0 :: rest) = Except.error e) :
    (exec cmds ev (a0 :: rest) name).1 =
      [("@" ++ name ++ ": error executing command: " ++ e, ev.channel)] := by
  have h := execLoop_match_error ev.channel (a0 :: rest) a0 name e cmds cmd
    hu hm hn he
  simp [exec, h]

theorem c10_error_reply_prefixed_witness :
    (exec [⟨"deploy", fun _ => Except.error "boom"⟩]
        ⟨"message", "U123", "D001", "x"⟩ ["deploy"] "").1 =
      [("@: error executing command: boom", "D001")] := by
  exact c10_error_reply_prefixed [⟨"deploy", fun _ => Except.error "boom"⟩]
    ⟨"message", "U123", "D001", "x"⟩ "deploy" [] "" "boom"
    ⟨"deploy", fun _ => Except.error "boom"⟩
    (List.Pairwise.cons (fun d hd => (List.not_mem_nil d hd).elim)
      List.Pairwise.nil)
    (List.mem_singleton.mpr rfl) rfl rfl

end SlackBot
